import Mathlib

/-!
Shallow embedding of the logger module `nc_log.c` (twemproxy-style logging
facility) and proofs of its specified properties.

Buffers are modelled as `List Char`; file descriptors and C `int` values as
`Int`; the OS environment (results of `open`, `write`, the `asctime` string,
ambient `errno`) is passed in as explicit parameters.  Every syscall the code
issues is recorded in an event trace.
-/

namespace NcLog

/-- Modelled from the spec: `LOG_MAX_LEN`, the fixed capacity of the line
buffer, is defined in the header `nc_log.h`, which is not part of the sources;
the source comments name 256 bytes as the line-buffer capacity. -/
def LOG_MAX_LEN : Nat := 256

/-- Modelled from the spec: the most-severe level constant from `nc_log.h`
(smaller numeric value = higher importance). -/
def LOG_EMERG : Int := 0

/-- Modelled from the spec: the least-severe (most verbose) level constant
from `nc_log.h`; only `LOG_EMERG ≤ LOG_PVERB` matters for the proofs. -/
def LOG_PVERB : Int := 11

/-- Standard error file descriptor. -/
def STDERR_FILENO : Int := 2

/-- The process-wide `struct logger`: severity threshold, configured file
name (`NULL` modelled as `none`), destination descriptor and failed-write
counter. -/
structure Logger where
  level : Int
  name : Option (List Char)
  fd : Int
  nerror : Nat
deriving DecidableEq

/-- Syscalls the logger issues, recorded as an event trace.  `openFile n`
denotes `open(n, O_WRONLY | O_APPEND | O_CREAT, 0644)`; `abort` denotes
abnormal process termination. -/
inductive Syscall where
  | openFile (name : Option (List Char)) : Syscall
  | close (fd : Int) : Syscall
  | write (fd : Int) (data : List Char) : Syscall
  | abort : Syscall
deriving DecidableEq

/-- Modelled from the spec: the bounded, truncating formatter
(`nc_scnprintf` / `nc_vscnprintf`, an out-of-scope collaborating primitive):
given a buffer of capacity `cap` it writes at most `cap - 1` bytes of the
fully formatted text `s` plus a terminating NUL and returns what it wrote
(kernel `scnprintf` contract: the return value counts bytes written, not
bytes needed). -/
def scnprintf (cap : Nat) (s : List Char) : List Char :=
  if cap = 0 then [] else s.take (cap - 1)

/-- Decimal rendering of a C `int` (`%d`). -/
def intDec (i : Int) : List Char :=
  if i < 0 then '-' :: Nat.toDigits 10 i.natAbs else Nat.toDigits 10 i.natAbs

/-- Zero-padded lowercase hex rendering of width `w` (`%08x`, `%02x`). -/
def hexPad (w n : Nat) : List Char :=
  List.replicate (w - (Nat.toDigits 16 n).length) '0' ++ Nat.toDigits 16 n

/-- The fully formatted text of the `_log` line prefix
`"[%.*s] %s:%d "` with precision `strlen(timestr) - 1` (the trailing newline
of `asctime` stripped). -/
def logPfx (timestr file : List Char) (line : Int) : List Char :=
  ['['] ++ timestr.take (timestr.length - 1) ++ [']', ' '] ++ file ++ [':'] ++
    intDec line ++ [' ']

/-- The line buffer `_log` assembles: the prefix formatted into
`buf` with capacity `LOG_MAX_LEN`, the message formatted into `buf + len`
with capacity `LOG_MAX_LEN - len`, then the single newline byte
`buf[len++] = '\n'`. -/
def logLineBuf (timestr file : List Char) (line : Int) (msg : List Char) :
    List Char :=
  let b1 := scnprintf LOG_MAX_LEN (logPfx timestr file line)
  let b2 := scnprintf (LOG_MAX_LEN - b1.length) msg
  b1 ++ b2 ++ ['\n']

/-- The `_log` emission function.  `timestr` is the `asctime` result,
`msg` the fully formatted caller message, `writeRes` the result of
`nc_write`, `errnoIn` the caller's `errno` on entry and `errnoMid` the
`errno` value left behind by the internal `time`/`localtime`/`write` calls
(overwritten by the final `errno = errno_save` restore).  Returns the new
logger state, the syscall trace, and the caller-visible `errno` on return. -/
def _log (l : Logger) (file : List Char) (line : Int) (panicAfter : Bool)
    (timestr msg : List Char) (writeRes errnoIn errnoMid : Int) :
    Logger × List Syscall × Int :=
  if l.fd < 0 then (l, [], errnoIn)
  else
    let errno_save := errnoIn
    let buf := logLineBuf timestr file line msg
    let _ := errnoMid
    let l' := if writeRes < 0 then { l with nerror := l.nerror + 1 } else l
    let evs := if panicAfter then [Syscall.write l.fd buf, Syscall.abort]
               else [Syscall.write l.fd buf]
    (l', evs, errno_save)

/-- The `_log_stderr` emission function: formats `msg` into a `4 *
LOG_MAX_LEN` buffer, appends the newline byte, writes unconditionally to
standard error, counts a failed write, and restores the caller's `errno`. -/
def _log_stderr (l : Logger) (msg : List Char) (writeRes errnoIn errnoMid : Int) :
    Logger × List Syscall × Int :=
  let errno_save := errnoIn
  let buf := scnprintf (4 * LOG_MAX_LEN) msg ++ ['\n']
  let _ := errnoMid
  let l' := if writeRes < 0 then { l with nerror := l.nerror + 1 } else l
  (l', [Syscall.write STDERR_FILENO buf], errno_save)

/-- The `log_init` lifecycle function: clamps `level` into
`[LOG_EMERG, LOG_PVERB]`, stores `name`; an empty or `NULL` name selects
standard error, otherwise the file is opened (`openRes` is the descriptor
`open` returned, negative on failure) and a failure is reported through
`log_stderr` (`errMsg` is the `strerror(errno)` text) before returning -1. -/
def log_init (l : Logger) (level : Int) (name : Option (List Char))
    (openRes : Int) (errMsg : List Char) (writeRes errnoIn errnoMid : Int) :
    Logger × Int × List Syscall :=
  let l1 : Logger := { l with level := max LOG_EMERG (min level LOG_PVERB),
                              name := name }
  match name with
  | none => ({ l1 with fd := STDERR_FILENO }, 0, [])
  | some s =>
    if s.length = 0 then ({ l1 with fd := STDERR_FILENO }, 0, [])
    else
      let l2 : Logger := { l1 with fd := openRes }
      if openRes < 0 then
        let r := _log_stderr l2
          ("opening log file '".toList ++ s ++ "' failed: ".toList ++ errMsg)
          writeRes errnoIn errnoMid
        (r.1, -1, Syscall.openFile (some s) :: r.2.1)
      else
        (l2, 0, [Syscall.openFile (some s)])

/-- The `log_deinit` lifecycle function: returns without closing when the
destination is invalid or standard error, otherwise closes it.  Note that the
source does not invalidate `l->fd` after the `close`. -/
def log_deinit (l : Logger) : Logger × List Syscall :=
  if l.fd < 0 ∨ l.fd = STDERR_FILENO then (l, [])
  else (l, [Syscall.close l.fd])

/-- The `log_reopen` lifecycle function: whenever the destination is not
standard error it closes the current descriptor and reopens the stored path
with the same append+create semantics as `log_init`; a failed reopen is
reported to standard error and ignored. -/
def log_reopen (l : Logger) (openRes : Int) (errMsg : List Char)
    (writeRes errnoIn errnoMid : Int) : Logger × List Syscall :=
  if l.fd ≠ STDERR_FILENO then
    let l1 : Logger := { l with fd := openRes }
    if openRes < 0 then
      let r := _log_stderr l1
        ("reopening log file '".toList ++ l.name.getD [] ++
          "' failed, ignored: ".toList ++ errMsg) writeRes errnoIn errnoMid
      (r.1, Syscall.close l.fd :: Syscall.openFile l.name :: r.2.1)
    else
      (l1, [Syscall.close l.fd, Syscall.openFile l.name])
  else (l, [])

/-- The `log_loggable` predicate: reads only `l->level` and returns 0 when
the requested level is above the threshold, 1 otherwise.  It is modelled as a
pure read-only function — the C function performs no writes. -/
def log_loggable (l : Logger) (level : Int) : Int :=
  if level > l.level then 0 else 1

/-- Environment for the level-control operations: the parameters consumed by
the `loga` emission they perform (`asctime` string, `nc_write` result, the
`errno` values). -/
structure Env where
  timestr : List Char
  writeRes : Int
  errnoIn : Int
  errnoMid : Int
deriving DecidableEq

/-- The `log_level_up` operation: below `LOG_PVERB` it increments the
threshold and announces the new level through `loga` (which expands to an
unconditional `_log` at `nc_log.c:110`); at `LOG_PVERB` it does nothing. -/
def log_level_up (l : Logger) (e : Env) : Logger × List Syscall :=
  if l.level < LOG_PVERB then
    let l1 : Logger := { l with level := l.level + 1 }
    let r := _log l1 "nc_log.c".toList 110 false e.timestr
      ("up log level to ".toList ++ intDec l1.level) e.writeRes e.errnoIn
      e.errnoMid
    (r.1, r.2.1)
  else (l, [])

/-- The `log_level_down` operation: above `LOG_EMERG` it decrements the
threshold and announces the new level; at `LOG_EMERG` it does nothing. -/
def log_level_down (l : Logger) (e : Env) : Logger × List Syscall :=
  if l.level > LOG_EMERG then
    let l1 : Logger := { l with level := l.level - 1 }
    let r := _log l1 "nc_log.c".toList 129 false e.timestr
      ("down log level to ".toList ++ intDec l1.level) e.writeRes e.errnoIn
      e.errnoMid
    (r.1, r.2.1)
  else (l, [])

/-- The `log_level_set` operation: clamps the requested level into
`[LOG_EMERG, LOG_PVERB]`, stores it, and announces it. -/
def log_level_set (l : Logger) (level : Int) (e : Env) : Logger × List Syscall :=
  let l1 : Logger := { l with level := max LOG_EMERG (min level LOG_PVERB) }
  let r := _log l1 "nc_log.c".toList 148 false e.timestr
    ("set log level to ".toList ++ intDec l1.level) e.writeRes e.errnoIn
    e.errnoMid
  (r.1, r.2.1)

/-- Modelled from the spec: the level-checked `LogLine` entry point (the
`log_debug`-family wrapper macro lives in `nc_log.h`, which is not part of
the sources): it consults `log_loggable` first and calls `_log` only when
the requested level is loggable, so a disabled statement does no formatting
and issues no syscall. -/
def log_debug (l : Logger) (level : Int) (file : List Char) (line : Int)
    (timestr msg : List Char) (writeRes errnoIn errnoMid : Int) :
    Logger × List Syscall × Int :=
  if log_loggable l level ≠ 0 then
    _log l file line false timestr msg writeRes errnoIn errnoMid
  else (l, [], errnoIn)

/-- A bounded formatting step of `_log_hexdump`: `nc_scnprintf(buf + len,
size - len, ...)` appending the formatted text `s` at the end of `buf`
(whose length is the running `len`). -/
def appendF (size : Nat) (buf s : List Char) : List Char :=
  buf ++ scnprintf (size - buf.length) s

/-- The first inner loop of a hexdump row: for up to 16 data bytes,
format `"%02x%s"` where the separator after byte 7 is two spaces. -/
def hexCols (size : Nat) (buf : List Char) (bytes : List Nat) (i : Nat) :
    List Char :=
  match bytes with
  | [] => buf
  | c :: rest =>
    if i < 16 then
      hexCols size
        (appendF size buf (hexPad 2 (c % 256) ++ (if i = 7 then [' ', ' '] else [' '])))
        rest (i + 1)
    else buf

/-- The padding loop of a hexdump row: for the remaining positions up to 16,
format `"  %s"` (a blank field in place of the hex pair).  The loop runs
`16 - i` further iterations, so it is given exactly that as structural
fuel. -/
def padCols (size : Nat) (buf : List Char) (i fuel : Nat) : List Char :=
  match fuel with
  | 0 => buf
  | f + 1 =>
    if i < 16 then
      padCols size
        (appendF size buf ([' ', ' '] ++ (if i = 7 then [' ', ' '] else [' '])))
        (i + 1) f
    else buf

/-- The ASCII loop of a hexdump row: each byte is rendered as itself when
printable (`isprint`, i.e. 0x20–0x7e) and as `'.'` otherwise. -/
def asciiCols (size : Nat) (buf : List Char) (bytes : List Nat) (i : Nat) :
    List Char :=
  match bytes with
  | [] => buf
  | c :: rest =>
    if i < 16 then
      asciiCols size
        (appendF size buf [if 32 ≤ c % 256 ∧ c % 256 ≤ 126 then Char.ofNat (c % 256) else '.'])
        rest (i + 1)
    else buf

/-- The outer row loop of `_log_hexdump`: while data remains and
`len < size - 1`, format the `"%08x  "` offset, the hex columns, the blank
padding, the `"  |"` separator, the ASCII columns and the closing `"|\n"`,
then advance by 16 bytes.  Each iteration consumes at least one data byte,
so `data.length` structural fuel (as supplied by `_log_hexdump`) always
suffices and the fuel never runs out before the loop condition fails. -/
def hexdumpLoop (size : Nat) (buf : List Char) (off : Nat) (data : List Nat)
    (fuel : Nat) : List Char :=
  match fuel with
  | 0 => buf
  | f + 1 =>
    if data = [] then buf
    else
      if buf.length < size - 1 then
        let row := data.take 16
        let b1 := appendF size buf (hexPad 8 off ++ [' ', ' '])
        let b2 := hexCols size b1 row 0
        let b3 := padCols size b2 row.length (16 - row.length)
        let b4 := appendF size b3 [' ', ' ', '|']
        let b5 := asciiCols size b4 row 0
        let b6 := appendF size b5 ['|', '\n']
        hexdumpLoop size b6 (off + 16) (data.drop 16) f
      else buf

/-- The `_log_hexdump` emission function: a no-op when the destination is
invalid, otherwise it assembles the canonical hex + ASCII dump of `data`
into an `8 * LOG_MAX_LEN` buffer, writes it in one call, counts a failed
write and restores the caller's `errno`.  The `fmt` varargs of the C
function are unused by its body and therefore not modelled. -/
def _log_hexdump (l : Logger) (data : List Nat) (writeRes errnoIn errnoMid : Int) :
    Logger × List Syscall × Int :=
  if l.fd < 0 then (l, [], errnoIn)
  else
    let errno_save := errnoIn
    let buf := hexdumpLoop (8 * LOG_MAX_LEN) [] 0 data data.length
    let _ := errnoMid
    let l' := if writeRes < 0 then { l with nerror := l.nerror + 1 } else l
    (l', [Syscall.write l.fd buf], errno_save)

/-- The threshold invariant: `level` lies in `[LOG_EMERG, LOG_PVERB]`. -/
def inRange (l : Logger) : Prop :=
  LOG_EMERG ≤ l.level ∧ l.level ≤ LOG_PVERB

instance (l : Logger) : Decidable (inRange l) := by
  unfold inRange; infer_instance

/-- A level-control operation together with the environment of its emission,
for reasoning about arbitrary operation sequences. -/
inductive LevelOp where
  | up (e : Env) : LevelOp
  | down (e : Env) : LevelOp
  | set (v : Int) (e : Env) : LevelOp
deriving DecidableEq

/-- State transition of a single level-control operation. -/
def applyLevelOp (l : Logger) : LevelOp → Logger
  | LevelOp.up e => (log_level_up l e).1
  | LevelOp.down e => (log_level_down l e).1
  | LevelOp.set v e => (log_level_set l v e).1

/-! ### Helper lemmas -/

theorem _log_fst_fields (l : Logger) (file : List Char) (line : Int)
    (panicAfter : Bool) (timestr msg : List Char) (wr e1 e2 : Int) :
    (_log l file line panicAfter timestr msg wr e1 e2).1.level = l.level ∧
    (_log l file line panicAfter timestr msg wr e1 e2).1.fd = l.fd ∧
    (_log l file line panicAfter timestr msg wr e1 e2).1.name = l.name := by
  unfold _log
  split
  · exact ⟨rfl, rfl, rfl⟩
  · dsimp only
    split <;> exact ⟨rfl, rfl, rfl⟩

theorem _log_stderr_fst_fields (l : Logger) (msg : List Char) (wr e1 e2 : Int) :
    (_log_stderr l msg wr e1 e2).1.level = l.level ∧
    (_log_stderr l msg wr e1 e2).1.fd = l.fd ∧
    (_log_stderr l msg wr e1 e2).1.name = l.name := by
  unfold _log_stderr
  dsimp only
  split <;> exact ⟨rfl, rfl, rfl⟩

theorem log_init_fst_level (l : Logger) (level : Int) (name : Option (List Char))
    (openRes : Int) (errMsg : List Char) (wr e1 e2 : Int) :
    (log_init l level name openRes errMsg wr e1 e2).1.level =
      max LOG_EMERG (min level LOG_PVERB) := by
  unfold log_init _log_stderr
  match name with
  | none => rfl
  | some s =>
    dsimp only
    split
    · rfl
    · split
      · dsimp only
        split <;> rfl
      · rfl

theorem clamp_inRange (v : Int) : LOG_EMERG ≤ max LOG_EMERG (min v LOG_PVERB) ∧
    max LOG_EMERG (min v LOG_PVERB) ≤ LOG_PVERB := by
  unfold LOG_EMERG LOG_PVERB
  omega

/-! ### Claim theorems -/

/-- C5: `log_loggable` is a pure predicate (modelled as a read-only function
of the logger state): for every level `L` and threshold `T` in
`[LOG_EMERG, LOG_PVERB]` it returns 1 exactly when `L ≤ T` and 0 exactly
when `L > T`. -/
theorem log_loggable_iff (l : Logger) (level : Int)
    (_hL1 : LOG_EMERG ≤ level) (_hL2 : level ≤ LOG_PVERB)
    (_hT1 : LOG_EMERG ≤ l.level) (_hT2 : l.level ≤ LOG_PVERB) :
    (log_loggable l level = 1 ↔ level ≤ l.level) ∧
    (log_loggable l level = 0 ↔ level > l.level) := by
  unfold log_loggable
  split <;> rename_i h <;>
    exact ⟨⟨fun h' => by omega, fun h' => by omega⟩,
           ⟨fun h' => by omega, fun h' => by omega⟩⟩

/-- Witness for C5 at the concrete threshold 3 and level 5. -/
theorem log_loggable_iff_witness :
    (log_loggable (Logger.mk 3 none 2 0) 5 = 1 ↔ (5 : Int) ≤ 3) ∧
    (log_loggable (Logger.mk 3 none 2 0) 5 = 0 ↔ (5 : Int) > 3) :=
  log_loggable_iff (Logger.mk 3 none 2 0) 5 (by decide) (by decide)
    (by decide) (by decide)

/-- C4: a level-checked `LogLine` call at a level strictly above the
threshold leaves the logger unchanged, issues no syscall (in particular
writes zero bytes), and the loggability check happens before any formatting
(the wrapper consults `log_loggable` and never reaches `_log`). -/
theorem disabled_level_no_write (l : Logger) (level : Int) (file : List Char)
    (line : Int) (timestr msg : List Char) (wr e1 e2 : Int)
    (h : level > l.level) :
    log_debug l level file line timestr msg wr e1 e2 = (l, [], e1) := by
  unfold log_debug log_loggable
  simp only [if_pos h, ne_eq, not_true_eq_false, reduceIte]

/-- Witness for C4: threshold 3, requested level 7. -/
theorem disabled_level_no_write_witness :
    log_debug (Logger.mk 3 none 2 0) 7 ['f'] 1 ['T', '\n'] ['m'] 0 0 0 =
      (Logger.mk 3 none 2 0, [], 0) :=
  disabled_level_no_write (Logger.mk 3 none 2 0) 7 ['f'] 1 ['T', '\n'] ['m']
    0 0 0 (by decide)

/-- C9: both `_log` and `_log_stderr` return with the caller-visible `errno`
equal to its value on entry, for every logger state, every internal `errno`
perturbation and every write outcome. -/
theorem errno_restored :
    (∀ (l : Logger) (file : List Char) (line : Int) (panicAfter : Bool)
        (timestr msg : List Char) (wr e1 e2 : Int),
        (_log l file line panicAfter timestr msg wr e1 e2).2.2 = e1) ∧
    (∀ (l : Logger) (msg : List Char) (wr e1 e2 : Int),
        (_log_stderr l msg wr e1 e2).2.2 = e1) := by
  constructor
  · intro l file line panicAfter timestr msg wr e1 e2
    unfold _log
    split
    · rfl
    · rfl
  · intro l msg wr e1 e2
    unfold _log_stderr
    rfl

/-- C2 counterexample: from a logger holding the valid non-stderr
descriptor 5, the first `log_deinit` closes it, yet the second call does not
find the destination invalid — it closes the very same descriptor again, so
the two calls in succession close it twice, not at most once. -/
theorem log_deinit_not_idempotent_counterexample :
    (log_deinit (log_deinit (Logger.mk 6 (some ['x']) 5 0)).1).2 ≠ [] ∧
    ((log_deinit (Logger.mk 6 (some ['x']) 5 0)).2 ++
        (log_deinit (log_deinit (Logger.mk 6 (some ['x']) 5 0)).1).2).count
      (Syscall.close 5) = 2 := by
  decide

/-- C2 amended: `log_deinit` never modifies the logger state; it closes
nothing when the destination is invalid or standard error, and otherwise
each call closes the destination descriptor — so a second call in
succession repeats the close instead of doing nothing. -/
theorem log_deinit_amended (l : Logger) :
    log_deinit l =
      (l, if l.fd < 0 ∨ l.fd = STDERR_FILENO then []
          else [Syscall.close l.fd]) ∧
    log_deinit (log_deinit l).1 = log_deinit l := by
  have h1 : (log_deinit l).1 = l := by
    unfold log_deinit
    split <;> rfl
  refine ⟨?_, by rw [h1]⟩
  unfold log_deinit
  split <;> rfl

/-- C3 counterexample: a `_log` call with the panic flag set but an invalid
destination (fd = -1) returns early: its trace is empty, so no abort — the
termination is not unconditional regardless of the destination state. -/
theorem log_panic_invalid_fd_no_abort_counterexample :
    Syscall.abort ∉
      (_log (Logger.mk 6 none (-1) 0) ['f'] 1 true [] [] 0 0 0).2.1 ∧
    (_log (Logger.mk 6 none (-1) 0) ['f'] 1 true [] [] 0 0 0).2.1 = [] := by
  decide

/-- C3 amended: whenever the destination is valid (fd ≥ 0), a `_log` call
with the panic flag set writes the formatted line and then aborts: the
abort is the last event, immediately after the write attempt. -/
theorem log_panic_aborts_after_write (l : Logger) (file : List Char)
    (line : Int) (timestr msg : List Char) (wr e1 e2 : Int)
    (h : 0 ≤ l.fd) :
    (_log l file line true timestr msg wr e1 e2).2.1 =
      [Syscall.write l.fd (logLineBuf timestr file line msg),
       Syscall.abort] := by
  unfold _log
  rw [if_neg (by omega)]
  rfl

/-- Witness for the amended C3 at a concrete valid-destination logger. -/
theorem log_panic_aborts_after_write_witness :
    (_log (Logger.mk 6 none 2 0) ['f'] 1 true ['T', '\n'] ['m'] 0 0 0).2.1 =
      [Syscall.write 2 ("[T] f:1 m".toList ++ ['\n']), Syscall.abort] := by
  rw [log_panic_aborts_after_write (Logger.mk 6 none 2 0) ['f'] 1 ['T', '\n']
    ['m'] 0 0 0 (by decide)]
  decide

/-- C6: the threshold never leaves `[LOG_EMERG, LOG_PVERB]`: `log_init` and
`log_level_set` clamp any input level into the range, `log_level_up` at
`LOG_PVERB` and `log_level_down` at `LOG_EMERG` are no-ops, and every
sequence of level-control operations started from a clamped state keeps the
threshold in range. -/
theorem threshold_invariant :
    (∀ (l : Logger) (level : Int) (name : Option (List Char)) (openRes : Int)
        (errMsg : List Char) (wr e1 e2 : Int),
        inRange (log_init l level name openRes errMsg wr e1 e2).1) ∧
    (∀ (l : Logger) (level : Int) (e : Env),
        inRange (log_level_set l level e).1) ∧
    (∀ (l : Logger) (e : Env), l.level = LOG_PVERB →
        log_level_up l e = (l, [])) ∧
    (∀ (l : Logger) (e : Env), l.level = LOG_EMERG →
        log_level_down l e = (l, [])) ∧
    (∀ (l : Logger) (ops : List LevelOp), inRange l →
        inRange (ops.foldl applyLevelOp l)) := by
  have hset : ∀ (l : Logger) (level : Int) (e : Env),
      inRange (log_level_set l level e).1 := by
    intro l level e
    unfold log_level_set
    have := _log_fst_fields { l with level := max LOG_EMERG (min level LOG_PVERB) }
      "nc_log.c".toList 148 false e.timestr
      ("set log level to ".toList ++ intDec (max LOG_EMERG (min level LOG_PVERB)))
      e.writeRes e.errnoIn e.errnoMid
    unfold inRange
    rw [this.1]
    exact clamp_inRange level
  refine ⟨?_, hset, ?_, ?_, ?_⟩
  · intro l level name openRes errMsg wr e1 e2
    unfold inRange
    rw [log_init_fst_level]
    exact clamp_inRange level
  · intro l e h
    unfold log_level_up
    rw [if_neg (by rw [h]; omega)]
  · intro l e h
    unfold log_level_down
    rw [if_neg (by rw [h]; unfold LOG_EMERG; omega)]
  · intro l ops
    induction ops generalizing l with
    | nil => exact fun h => h
    | cons op rest ih =>
      intro h
      refine ih (applyLevelOp l op) ?_
      cases op with
      | up e =>
        simp only [applyLevelOp]
        unfold log_level_up
        split <;> rename_i hlt
        · have := _log_fst_fields { l with level := l.level + 1 }
            "nc_log.c".toList 110 false e.timestr
            ("up log level to ".toList ++ intDec (l.level + 1))
            e.writeRes e.errnoIn e.errnoMid
          unfold inRange
          rw [this.1]
          simp only [inRange, LOG_EMERG, LOG_PVERB] at h hlt ⊢
          omega
        · exact h
      | down e =>
        simp only [applyLevelOp]
        unfold log_level_down
        split <;> rename_i hgt
        · have := _log_fst_fields { l with level := l.level - 1 }
            "nc_log.c".toList 129 false e.timestr
            ("down log level to ".toList ++ intDec (l.level - 1))
            e.writeRes e.errnoIn e.errnoMid
          unfold inRange
          rw [this.1]
          simp only [inRange, LOG_EMERG, LOG_PVERB] at h hgt ⊢
          omega
        · exact h
      | set v e =>
        simp only [applyLevelOp]
        exact hset l v e

/-- Witness for C6: no-ops at the range ends and a concrete operation
sequence from a clamped state. -/
theorem threshold_invariant_witness :
    log_level_up (Logger.mk 11 none 2 0) (Env.mk ['T', '\n'] 0 0 0) =
      (Logger.mk 11 none 2 0, []) ∧
    log_level_down (Logger.mk 0 none 2 0) (Env.mk ['T', '\n'] 0 0 0) =
      (Logger.mk 0 none 2 0, []) ∧
    inRange ([LevelOp.up (Env.mk ['T', '\n'] 0 0 0),
              LevelOp.set 99 (Env.mk ['T', '\n'] 0 0 0),
              LevelOp.down (Env.mk ['T', '\n'] 0 0 0)].foldl applyLevelOp
      (Logger.mk 3 none 2 0)) :=
  ⟨threshold_invariant.2.2.1 (Logger.mk 11 none 2 0)
      (Env.mk ['T', '\n'] 0 0 0) (by decide),
   threshold_invariant.2.2.2.1 (Logger.mk 0 none 2 0)
      (Env.mk ['T', '\n'] 0 0 0) (by decide),
   threshold_invariant.2.2.2.2 (Logger.mk 3 none 2 0) _ (by decide)⟩

theorem scnprintf_line_eq (p m : List Char) :
    scnprintf LOG_MAX_LEN p ++
      scnprintf (LOG_MAX_LEN - (scnprintf LOG_MAX_LEN p).length) m =
    (p ++ m).take (LOG_MAX_LEN - 1) := by
  unfold scnprintf LOG_MAX_LEN
  rw [if_neg (by norm_num)]
  simp only [List.length_take]
  rw [if_neg (by omega)]
  rw [List.take_append_eq_append_take]
  congr 1
  congr 1
  omega

/-- C1: the `_log` formatting never leaves the fixed `LOG_MAX_LEN`-byte line
buffer: for every timestamp, source-file path, line number and message, the
assembled line is at most `LOG_MAX_LEN` bytes (so the final newline byte is
stored in bounds), it is newline-terminated, its content is a truncation of
the full prefix-plus-message text, and the only write `_log` issues is of
exactly this bounded buffer. -/
theorem log_line_formatting_bounded (timestr file : List Char) (line : Int)
    (msg : List Char) :
    (logLineBuf timestr file line msg).length ≤ LOG_MAX_LEN ∧
    (logLineBuf timestr file line msg).getLast? = some '\n' ∧
    (∃ n, (logLineBuf timestr file line msg).dropLast =
      (logPfx timestr file line ++ msg).take n) ∧
    (∀ (l : Logger) (panicAfter : Bool) (wr e1 e2 : Int),
      (_log l file line panicAfter timestr msg wr e1 e2).2.1 = [] ∨
      ((_log l file line panicAfter timestr msg wr e1 e2).2.1).head? =
        some (Syscall.write l.fd (logLineBuf timestr file line msg))) := by
  have heq : logLineBuf timestr file line msg =
      (logPfx timestr file line ++ msg).take (LOG_MAX_LEN - 1) ++ ['\n'] := by
    show scnprintf LOG_MAX_LEN (logPfx timestr file line) ++
        scnprintf (LOG_MAX_LEN -
          (scnprintf LOG_MAX_LEN (logPfx timestr file line)).length) msg ++
        ['\n'] = _
    rw [scnprintf_line_eq]
  refine ⟨?_, ?_, ?_, ?_⟩
  · rw [heq]
    simp only [List.length_append, List.length_take, List.length_cons,
      List.length_nil]
    unfold LOG_MAX_LEN
    omega
  · rw [heq]
    exact List.getLast?_concat _
  · exact ⟨LOG_MAX_LEN - 1, by rw [heq, List.dropLast_concat]⟩
  · intro l panicAfter wr e1 e2
    unfold _log
    split
    · exact Or.inl rfl
    · right
      dsimp only
      split <;> rfl

set_option maxRecDepth 8000 in
/-- C7: on 20 bytes of 0x41 the hexdump formatter produces exactly two rows
in canonical hex + ASCII form — offsets `00000000` and `00000010`, the
`41` hex pairs with the extra space after the eighth column and blank-padded
fields in the short final row, the `A` characters between the `|`
delimiters, each row closed by `|` and a newline — and `_log_hexdump`
writes exactly these two rows to the destination. -/
theorem hexdump_two_rows_0x41 :
    hexdumpLoop (8 * LOG_MAX_LEN) [] 0 (List.replicate 20 65) 20 =
      ("00000000  41 41 41 41 41 41 41 41  41 41 41 41 41 41 41 41   |AAAAAAAAAAAAAAAA|\n" ++
       "00000010  41 41 41 41                                        |AAAA|\n").toList ∧
    (_log_hexdump (Logger.mk 6 none 2 0) (List.replicate 20 65) 0 0 0).2.1 =
      [Syscall.write 2
        ("00000000  41 41 41 41 41 41 41 41  41 41 41 41 41 41 41 41   |AAAAAAAAAAAAAAAA|\n" ++
         "00000010  41 41 41 41                                        |AAAA|\n").toList] := by
  constructor <;> decide

/-- C8: `log_init` on a non-empty path whose `open` fails returns -1,
reports the failure through the unconditional stderr path, and leaves the
destination invalid (negative), after which every `_log` call is a silent
no-op (no syscall, no state change) while every `_log_stderr` call still
formats its message and writes it to standard error. -/
theorem init_open_failure (l : Logger) (level : Int) (s : List Char)
    (openRes : Int) (errMsg : List Char) (wr e1 e2 : Int)
    (hs : s ≠ []) (hopen : openRes < 0) :
    (log_init l level (some s) openRes errMsg wr e1 e2).2.1 = -1 ∧
    (log_init l level (some s) openRes errMsg wr e1 e2).1.fd < 0 ∧
    (∃ out, (log_init l level (some s) openRes errMsg wr e1 e2).2.2 =
      [Syscall.openFile (some s), Syscall.write STDERR_FILENO out]) ∧
    (∀ (file : List Char) (line : Int) (panicAfter : Bool)
        (timestr msg : List Char) (wr' e1' e2' : Int),
      _log (log_init l level (some s) openRes errMsg wr e1 e2).1 file line
          panicAfter timestr msg wr' e1' e2' =
        ((log_init l level (some s) openRes errMsg wr e1 e2).1, [], e1')) ∧
    (∀ (msg' : List Char) (wr' e1' e2' : Int),
      (_log_stderr (log_init l level (some s) openRes errMsg wr e1 e2).1 msg'
          wr' e1' e2').2.1 =
        [Syscall.write STDERR_FILENO
          (scnprintf (4 * LOG_MAX_LEN) msg' ++ ['\n'])]) := by
  have hsl : ¬s.length = 0 := fun hc => hs (List.length_eq_zero.mp hc)
  have hfd : (log_init l level (some s) openRes errMsg wr e1 e2).1.fd =
      openRes := by
    unfold log_init _log_stderr
    dsimp only
    rw [if_neg hsl, if_pos hopen]
    dsimp only
    split <;> rfl
  refine ⟨?_, ?_, ?_, ?_, ?_⟩
  · unfold log_init
    dsimp only
    rw [if_neg hsl, if_pos hopen]
  · rw [hfd]
    exact hopen
  · refine ⟨scnprintf (4 * LOG_MAX_LEN)
      ("opening log file '".toList ++ s ++ "' failed: ".toList ++ errMsg) ++
      ['\n'], ?_⟩
    unfold log_init _log_stderr
    dsimp only
    rw [if_neg hsl, if_pos hopen]
  · intro file line panicAfter timestr msg wr' e1' e2'
    unfold _log
    rw [if_pos (by rw [hfd]; exact hopen)]
  · intro msg' wr' e1' e2'
    unfold _log_stderr
    rfl

/-- Witness for C8: a failed open (`openRes = -1`) on path `/bad` from the
zero-initialized logger, followed by a silenced `_log` call. -/
theorem init_open_failure_witness :
    (log_init (Logger.mk 0 none 0 0) 6 (some "/bad".toList) (-1) "e".toList
      0 0 0).2.1 = -1 ∧
    _log (log_init (Logger.mk 0 none 0 0) 6 (some "/bad".toList) (-1)
        "e".toList 0 0 0).1 "f".toList 1 false "T\n".toList "m".toList
        0 7 9 =
      ((log_init (Logger.mk 0 none 0 0) 6 (some "/bad".toList) (-1)
        "e".toList 0 0 0).1, [], 7) :=
  ⟨(init_open_failure (Logger.mk 0 none 0 0) 6 "/bad".toList (-1) "e".toList
      0 0 0 (by decide) (by decide)).1,
   (init_open_failure (Logger.mk 0 none 0 0) 6 "/bad".toList (-1) "e".toList
      0 0 0 (by decide) (by decide)).2.2.2.1 "f".toList 1 false
      "T\n".toList "m".toList 0 7 9⟩

/-- C10: when the destination descriptor is invalid (negative) — hence not
standard error — `log_reopen` does not take the stderr no-op branch: it
closes the invalid descriptor, opens the stored path again with
append+create semantics, and when the open succeeds (`openRes ≥ 0`) every
subsequent `_log` call writes its line to the new file descriptor. -/
theorem reopen_invalid_fd (l : Logger) (openRes : Int) (errMsg : List Char)
    (wr e1 e2 : Int) (hfd : l.fd < 0) (hopen : 0 ≤ openRes) :
    (log_reopen l openRes errMsg wr e1 e2).2 =
      [Syscall.close l.fd, Syscall.openFile l.name] ∧
    (log_reopen l openRes errMsg wr e1 e2).1 = { l with fd := openRes } ∧
    (∀ (file : List Char) (line : Int) (timestr msg : List Char)
        (wr' e1' e2' : Int),
      (_log (log_reopen l openRes errMsg wr e1 e2).1 file line false timestr
          msg wr' e1' e2').2.1 =
        [Syscall.write openRes (logLineBuf timestr file line msg)]) := by
  have hne : l.fd ≠ STDERR_FILENO := by
    unfold STDERR_FILENO
    omega
  have hshape : log_reopen l openRes errMsg wr e1 e2 =
      ({ l with fd := openRes },
       [Syscall.close l.fd, Syscall.openFile l.name]) := by
    unfold log_reopen
    dsimp only
    rw [if_pos hne, if_neg (by omega)]
  refine ⟨by rw [hshape], by rw [hshape], ?_⟩
  intro file line timestr msg wr' e1' e2'
  rw [hshape]
  unfold _log
  rw [if_neg (show ¬({ l with fd := openRes } : Logger).fd < 0 by
    show ¬openRes < 0
    omega)]
  rfl

/-- Witness for C10: reopen after a failed init (fd = -1) with a successful
open returning descriptor 5, then a `_log` call writing to it. -/
theorem reopen_invalid_fd_witness :
    (log_reopen (Logger.mk 6 (some "log".toList) (-1) 0) 5 "e".toList
      0 0 0).2 =
      [Syscall.close (-1), Syscall.openFile (some "log".toList)] ∧
    (_log (log_reopen (Logger.mk 6 (some "log".toList) (-1) 0) 5 "e".toList
        0 0 0).1 "f".toList 1 false "T\n".toList "m".toList 0 0 0).2.1 =
      [Syscall.write 5 (logLineBuf "T\n".toList "f".toList 1 "m".toList)] :=
  ⟨(reopen_invalid_fd (Logger.mk 6 (some "log".toList) (-1) 0) 5 "e".toList
      0 0 0 (by decide) (by decide)).1,
   (reopen_invalid_fd (Logger.mk 6 (some "log".toList) (-1) 0) 5 "e".toList
      0 0 0 (by decide) (by decide)).2.2 "f".toList 1 "T\n".toList
      "m".toList 0 0 0⟩

end NcLog
